import Mathlib

/-!
Shallow embedding of the Go PCRE wrapper (`pcre.go`) from elmeyer/go-pcre.

The underlying PCRE engine (pcre_compile / pcre_study / pcre_exec /
pcre_fullinfo) is an external collaborator; it is modelled abstractly:
compiled-pattern handles are natural-number ids, the capture-group query
`pcre_fullinfo(CAPTURECOUNT)` is an abstract function `groupsOf : Nat → Nat`,
`pcre_study` is an abstract function returning an optional artifact and an
optional error message, and `pcre_exec` is an abstract function from the
subject bytes and flags to a signed result code together with the values it
writes into the caller-supplied offset vector.

Go byte slices are `List Nat` (wrapped in `Option` where slice nil-ness
matters), Go strings are byte lists as well, Go `C.int` values are `Int`.
Go runtime panics (negative or out-of-range slice bounds, out-of-range
index) are modelled by `Option`/`Except`: `none`/`.error` is a panic.
-/

namespace GoPcre

/-- Engine result codes, from the PCRE public API (`pcre.h`, the external
engine's header): `PCRE_ERROR_NOMATCH`. -/
def ERROR_NOMATCH : Int := -1

/-- `PCRE_ERROR_BADOPTION` from the PCRE public API. -/
def ERROR_BADOPTION : Int := -3

/-- `PCRE_ERROR_PARTIAL` from the PCRE public API. -/
def ERROR_PARTIAL : Int := -12

/-- `PCRE_STUDY_JIT_COMPILE` from the PCRE public API. -/
def STUDY_JIT_COMPILE : Int := 1

/-- Go slice indexing `v[i]`: panics (`none`) when out of range. -/
def goIndex (v : List Int) (i : Nat) : Option Int := v.get? i

/-- Go slicing `s[a:b]` with `Int` bounds: panics (`none`) unless
`0 ≤ a ≤ b ≤ len s`. -/
def goSlice (s : List Nat) (a b : Int) : Option (List Nat) :=
  if 0 ≤ a ∧ a ≤ b ∧ b ≤ (s.length : Int) then
    some ((s.drop a.toNat).take (b - a).toNat)
  else none

/-- `Regexp` (pcre.go): a compiled-pattern handle and an optional study
artifact.  Handles are abstract ids; `none` is a nil pointer.  The
`finalizer` field models whether a `runtime.SetFinalizer` reclamation hook
is currently installed (set by `Compile`, cleared by `FreeRegexp`). -/
structure Regexp where
  ptr : Option Nat
  extra : Option Nat
  finalizer : Bool
deriving DecidableEq, Repr

/-- `Matcher` (pcre.go): match state bound to a `Regexp`.  `subjects` is the
string-typed subject, `subjectb` the byte-typed subject (`none` = nil slice),
`partialFlag` is the Go field `partial`. -/
structure Matcher where
  re : Option Regexp
  groups : Nat
  ovector : List Int
  matchesFlag : Bool
  partialFlag : Bool
  subjects : List Nat
  subjectb : Option (List Nat)
  err : Option String
deriving DecidableEq, Repr

/-- `matched` (pcre.go:423-436): classify a raw `pcre_exec` result code into
(matched, error). -/
def matched (rc : Int) : Bool × Option String :=
  if rc ≥ 0 ∨ rc = ERROR_PARTIAL then (true, none)
  else if rc = ERROR_NOMATCH then (false, none)
  else if rc = ERROR_BADOPTION then (false, some "PCRE.Match: invalid option flag")
  else (false, some ("unexpected return code from pcre_exec: " ++ toString rc))

/-- `Regexp.Groups` (pcre.go:261-267): capture-group count via
`pcre_fullinfo(CAPTURECOUNT)` (abstracted as `groupsOf`); panics (`none`)
on a released/uncompiled Regexp. -/
def Regexp.Groups (groupsOf : Nat → Nat) (re : Regexp) : Option Nat :=
  match re.ptr with
  | none => none
  | some h => some (groupsOf h)

/-- The fast-path test of `Matcher.Init` (pcre.go:329):
`m.re != nil && m.re.ptr != nil && m.re.ptr == re.ptr`. -/
def Matcher.sameHandle (m : Matcher) (re : Regexp) : Bool :=
  match m.re with
  | none => false
  | some r =>
    match r.ptr with
    | none => false
    | some p => re.ptr = some p

/-- `Matcher.Init` (pcre.go:323-340): binds the matcher to `re`.  Panics
(`none`) when `re.ptr` is nil.  Resets `matches` and `err`; on the fast path
(already bound to the same handle) returns without touching `groups` or
`ovector`; otherwise re-derives the group count and grows the offset vector
when undersized (`make` zero-initializes, hence `List.replicate _ 0`). -/
def Matcher.Init (groupsOf : Nat → Nat) (m : Matcher) (re : Regexp) :
    Option Matcher :=
  match re.ptr with
  | none => none
  | some h =>
    let m1 : Matcher := { m with matchesFlag := false, err := none }
    if m1.sameHandle re then some m1
    else
      let groups := groupsOf h
      let ovector :=
        if m1.ovector.length < 3 * (1 + groups) then
          List.replicate (3 * (1 + groups)) (0 : Int)
        else m1.ovector
      some { m1 with re := some re, groups := groups, ovector := ovector }

/-- A call into the C allocator's free routines, recorded so that double
frees are observable. -/
inductive CCall where
  | freePtr : Nat → CCall
  | freeStudy : Nat → CCall
deriving DecidableEq, Repr

/-- `Regexp.FreeRegexp` (pcre.go:165-176): frees the compiled handle and the
study artifact when present, nils both fields, and removes the finalizer
(`runtime.SetFinalizer(re, nil)`).  Returns the updated struct and the list
of C free calls it issued. -/
def Regexp.FreeRegexp (re : Regexp) : Regexp × List CCall :=
  let (calls1, ptr1) :=
    match re.ptr with
    | some h => ([CCall.freePtr h], (none : Option Nat))
    | none => ([], none)
  let (calls2, extra1) :=
    match re.extra with
    | some e => ([CCall.freeStudy e], (none : Option Nat))
    | none => ([], none)
  ({ ptr := ptr1, extra := extra1, finalizer := false }, calls1 ++ calls2)

/-- The flag adjustment in `Regexp.Study` (pcre.go:244-246): a zero flag
argument defaults to `STUDY_JIT_COMPILE`. -/
def studyFlags (flags : Int) : Int :=
  if flags = 0 then STUDY_JIT_COMPILE else flags

/-- `Regexp.Study` (pcre.go:240-258): fails when already studied; otherwise
calls `pcre_study` (abstracted as `studyFn`, taking the possibly-nil handle
and the adjusted flags, returning the artifact and an optional error
message), stores the artifact, and returns the engine's error message if
any; a missing artifact without an error message is success. -/
def Regexp.Study (studyFn : Option Nat → Int → Option Nat × Option String)
    (re : Regexp) (flags : Int) : Regexp × Option String :=
  if re.extra.isSome then
    (re, some "Study: Regexp has already been optimized")
  else
    let res := studyFn re.ptr (studyFlags flags)
    let re1 : Regexp := { re with extra := res.1 }
    match res.2 with
    | some msg => (re1, some msg)
    | none => (re1, none)

/-- The engine writing its results into the caller-supplied offset vector:
`pcre_exec` overwrites a prefix of the vector, never changing its length. -/
def writeInto (dst src : List Int) : List Int :=
  src.take dst.length ++ dst.drop (min src.length dst.length)

/-- The zero value of Go's `new(Matcher)`. -/
def newMatcher : Matcher :=
  { re := none, groups := 0, ovector := [], matchesFlag := false,
    partialFlag := false, subjects := [], subjectb := none, err := none }

/-- An abstract `pcre_exec`: from the subject bytes and the flags to the
signed result code and the values written into the offset vector. -/
def ExecFn : Type := List Nat → Int → Int × List Int

/-- `Matcher.Exec` (pcre.go:384-396): records the byte subject (clearing the
string subject), invokes the engine, and returns the raw result code.
Panics (`none`) on an unbound matcher. -/
def Matcher.Exec (exec : ExecFn) (m : Matcher) (subject : List Nat)
    (flags : Int) : Option (Matcher × Int) :=
  match m.re with
  | none => none
  | some r =>
    match r.ptr with
    | none => none
    | some _ =>
      let res := exec subject flags
      some ({ m with
                subjects := []
                subjectb := some subject
                ovector := writeInto m.ovector res.2 }, res.1)

/-- `Matcher.ExecString` (pcre.go:400-413): records the string subject
(clearing the byte subject), invokes the engine, returns the raw code. -/
def Matcher.ExecString (exec : ExecFn) (m : Matcher) (subject : List Nat)
    (flags : Int) : Option (Matcher × Int) :=
  match m.re with
  | none => none
  | some r =>
    match r.ptr with
    | none => none
    | some _ =>
      let res := exec subject flags
      some ({ m with
                subjects := subject
                subjectb := none
                ovector := writeInto m.ovector res.2 }, res.1)

/-- `Matcher.Match` (pcre.go:353-364): a no-op returning false when an error
is recorded; otherwise calls `Exec`, classifies the code via `matched`,
records the partial flag, and returns whether the match succeeded. -/
def Matcher.Match (exec : ExecFn) (m : Matcher) (subject : List Nat)
    (flags : Int) : Option (Matcher × Bool) :=
  match m.err with
  | some _ => some (m, false)
  | none =>
    match m.Exec exec subject flags with
    | none => none
    | some (m1, rc) =>
      let mo := matched rc
      some ({ m1 with
                matchesFlag := mo.1
                err := mo.2
                partialFlag := rc == ERROR_PARTIAL }, mo.1)

/-- `Matcher.MatchString` (pcre.go:369-380): as `Match`, via `ExecString`. -/
def Matcher.MatchString (exec : ExecFn) (m : Matcher) (subject : List Nat)
    (flags : Int) : Option (Matcher × Bool) :=
  match m.err with
  | some _ => some (m, false)
  | none =>
    match m.ExecString exec subject flags with
    | none => none
    | some (m1, rc) =>
      let mo := matched rc
      some ({ m1 with
                matchesFlag := mo.1
                err := mo.2
                partialFlag := rc == ERROR_PARTIAL }, mo.1)

/-- `Regexp.NewMatcher` (pcre.go:284-288): a fresh matcher bound to `re`. -/
def Regexp.NewMatcher (groupsOf : Nat → Nat) (re : Regexp) : Option Matcher :=
  Matcher.Init groupsOf newMatcher re

/-- `Regexp.Matcher` (pcre.go:292-296): new matcher plus a first `Match`. -/
def Regexp.Matcher (groupsOf : Nat → Nat) (exec : ExecFn) (re : Regexp)
    (subject : List Nat) (flags : Int) : Option GoPcre.Matcher :=
  match re.NewMatcher groupsOf with
  | none => none
  | some m =>
    match m.Match exec subject flags with
    | none => none
    | some (m1, _) => some m1

/-- `Regexp.MatcherString` (pcre.go:300-304): new matcher plus a first
`MatchString`. -/
def Regexp.MatcherString (groupsOf : Nat → Nat) (exec : ExecFn) (re : Regexp)
    (subject : List Nat) (flags : Int) : Option GoPcre.Matcher :=
  match re.NewMatcher groupsOf with
  | none => none
  | some m =>
    match m.MatchString exec subject flags with
    | none => none
    | some (m1, _) => some m1

/-- `Matcher.Group` (pcre.go:468-478): the numbered group's bytes, `none`
(a nil slice) when the group is not present.  The outer `Option` is a
panic: out-of-range vector index or slice bounds. -/
def Matcher.Group (m : Matcher) (group : Nat) : Option (Option (List Nat)) := do
  let start ← goIndex m.ovector (2 * group)
  let stop ← goIndex m.ovector (2 * group + 1)
  if 0 ≤ start then
    match m.subjectb with
    | some b => (goSlice b start stop).map some
    | none => (goSlice m.subjects start stop).map some
  else
    pure none

/-- `Matcher.GroupString` (pcre.go:534-544): the numbered group as a string,
the empty string when the group is not present.  The outer `Option` is a
panic. -/
def Matcher.GroupString (m : Matcher) (group : Nat) : Option (List Nat) := do
  let start ← goIndex m.ovector (2 * group)
  let stop ← goIndex m.ovector (2 * group + 1)
  if 0 ≤ start then
    match m.subjectb with
    | some b => goSlice b start stop
    | none => goSlice m.subjects start stop
  else
    pure []

/-- `Matcher.Extract` (pcre.go:484-496): `nil` (the inner `none`) without a
successful match; otherwise the byte subject followed by, for each group
`i` in `1..groups`, the slice `subjectb[ovector[2i]:ovector[2i+1]]`.  The
outer `Option` is a panic (negative slice bounds for an unset group). -/
def Matcher.Extract (m : Matcher) : Option (Option (List (Option (List Nat)))) :=
  if !m.matchesFlag then some none
  else
    match (List.range m.groups).mapM (fun j => do
        let x0 ← goIndex m.ovector (2 * (j + 1))
        let x1 ← goIndex m.ovector (2 * (j + 1) + 1)
        goSlice (m.subjectb.getD []) x0 x1) with
    | none => none
    | some gs => some (some (m.subjectb :: gs.map some))

/-- `Matcher.ExtractString` (pcre.go:502-514): as `Extract`, over the string
subject. -/
def Matcher.ExtractString (m : Matcher) : Option (Option (List (List Nat))) :=
  if !m.matchesFlag then some none
  else
    match (List.range m.groups).mapM (fun j => do
        let x0 ← goIndex m.ovector (2 * (j + 1))
        let x1 ← goIndex m.ovector (2 * (j + 1) + 1)
        goSlice m.subjects x0 x1) with
    | none => none
    | some gs => some (some (m.subjects :: gs))

/-- The outcome of running a fuelled loop: a result, a Go runtime panic, or
fuel exhaustion (the loop did not finish within the given step budget). -/
inductive RunRes (α : Type) where
  | ok : α → RunRes α
  | panicked : RunRes α
  | noFuel : RunRes α
deriving DecidableEq, Repr

/-- `maxInt` (pcre.go:679-685). -/
def maxInt (a b : Int) : Int := if a > b then a else b

/-- The loop state of `Regexp.ReplaceAll`: the matcher, the remaining
subject bytes, and the accumulator `r`. -/
structure RAState where
  m : Matcher
  bytes : List Nat
  r : List Nat
deriving DecidableEq, Repr

/-- One iteration's outcome in `Regexp.ReplaceAll`. -/
inductive RAStep where
  | done : List Nat → Option String → RAStep
  | next : RAState → RAStep
  | panicked : RAStep
deriving DecidableEq, Repr

/-- One iteration of the `Regexp.ReplaceAll` loop (pcre.go:619-624): while
the last match succeeded, append `bytes[:ovector[0]]` and the replacement
to the accumulator, advance the subject to `bytes[ovector[1]:]`, and match
again; once a match fails, return the accumulator plus the remaining bytes
together with the matcher's error. -/
def replaceAllStep (exec : ExecFn) (repl : List Nat) (flags : Int)
    (st : RAState) : RAStep :=
  if st.m.matchesFlag then
    match goIndex st.m.ovector 0, goIndex st.m.ovector 1 with
    | some ov0, some ov1 =>
      match goSlice st.bytes 0 ov0 with
      | none => RAStep.panicked
      | some pre =>
        match goSlice st.bytes ov1 st.bytes.length with
        | none => RAStep.panicked
        | some rest =>
          let r1 := st.r ++ pre ++ repl
          match Matcher.Match exec st.m rest flags with
          | none => RAStep.panicked
          | some (m1, _) => RAStep.next ⟨m1, rest, r1⟩
    | _, _ => RAStep.panicked
  else
    RAStep.done (st.r ++ st.bytes) st.m.err

/-- The `Regexp.ReplaceAll` loop, fuelled. -/
def replaceAllLoop (exec : ExecFn) (repl : List Nat) (flags : Int) :
    Nat → RAState → RunRes (List Nat × Option String)
  | 0, _ => RunRes.noFuel
  | fuel + 1, st =>
    match replaceAllStep exec repl flags st with
    | RAStep.done r e => RunRes.ok (r, e)
    | RAStep.next st1 => replaceAllLoop exec repl flags fuel st1
    | RAStep.panicked => RunRes.panicked

/-- `Regexp.ReplaceAll` (pcre.go:616-625): build a matcher with a first
match, then run the replacement loop. -/
def Regexp.ReplaceAll (groupsOf : Nat → Nat) (exec : ExecFn) (re : Regexp)
    (bytes repl : List Nat) (flags : Int) (fuel : Nat) :
    RunRes (List Nat × Option String) :=
  match Regexp.Matcher groupsOf exec re bytes flags with
  | none => RunRes.panicked
  | some m => replaceAllLoop exec repl flags fuel ⟨m, bytes, []⟩

/-- `Match` (pcre.go:634-637), the find-all result record: the found text
and its location bounds. -/
structure GoMatch where
  finding : List Nat
  loc : List Int
deriving DecidableEq, Repr

/-- The loop state of `Regexp.FindAll`: the matcher, the accumulated
offset into the original subject, and the matches found so far. -/
structure FAState where
  m : Matcher
  offset : Int
  acc : List GoMatch
deriving DecidableEq, Repr

/-- One iteration's outcome in `Regexp.FindAll`. -/
inductive FAStep where
  | done : List GoMatch → Option String → FAStep
  | next : FAState → FAStep
  | panicked : FAStep
deriving DecidableEq, Repr

/-- One iteration of the `Regexp.FindAll` loop (pcre.go:644-660): while the
last match succeeded, record the match at the offset-translated indices,
advance the offset by `maxInt 1 ovector[1]`, and either re-match against
the suffix `subject[offset:]` (when the offset is still short of the
subject length) or stop. -/
def findAllStep (exec : ExecFn) (subject : List Nat) (flags : Int)
    (st : FAState) : FAStep :=
  if st.m.matchesFlag then
    match goIndex st.m.ovector 0, goIndex st.m.ovector 1 with
    | some ov0, some ov1 =>
      let leftIdx := ov0 + st.offset
      let rightIdx := ov1 + st.offset
      match goSlice subject leftIdx rightIdx with
      | none => FAStep.panicked
      | some txt =>
        let acc1 := st.acc ++ [⟨txt, [leftIdx, rightIdx]⟩]
        let offset1 := st.offset + maxInt 1 ov1
        if offset1 < (subject.length : Int) then
          match goSlice subject offset1 subject.length with
          | none => FAStep.panicked
          | some suffix =>
            match Matcher.MatchString exec st.m suffix flags with
            | none => FAStep.panicked
            | some (m1, _) => FAStep.next ⟨m1, offset1, acc1⟩
        else FAStep.done acc1 st.m.err
    | _, _ => FAStep.panicked
  else FAStep.done st.acc st.m.err

/-- The `Regexp.FindAll` loop, fuelled. -/
def findAllLoop (exec : ExecFn) (subject : List Nat) (flags : Int) :
    Nat → FAState → RunRes (List GoMatch × Option String)
  | 0, _ => RunRes.noFuel
  | fuel + 1, st =>
    match findAllStep exec subject flags st with
    | FAStep.done acc e => RunRes.ok (acc, e)
    | FAStep.next st1 => findAllLoop exec subject flags fuel st1
    | FAStep.panicked => RunRes.panicked

/-- `Regexp.FindAll` (pcre.go:640-662): build a string matcher with a first
match, then run the find-all loop from offset 0.  The fuel
`subject.length + 1` is shown sufficient below. -/
def Regexp.FindAll (groupsOf : Nat → Nat) (exec : ExecFn) (re : Regexp)
    (subject : List Nat) (flags : Int) :
    RunRes (List GoMatch × Option String) :=
  match Regexp.MatcherString groupsOf exec re subject flags with
  | none => RunRes.panicked
  | some m => findAllLoop exec subject flags (subject.length + 1) ⟨m, 0, []⟩

/-- The effective subject a matcher's accessors slice: the byte subject when
one is recorded, else the string subject. -/
def Matcher.subjectData (m : Matcher) : List Nat :=
  match m.subjectb with
  | some b => b
  | none => m.subjects

/-- A capture-count query reporting zero groups for every handle. -/
def groupsOfZero : Nat → Nat := fun _ => 0

/-- A capture-count query reporting one group for every handle. -/
def groupsOfOne : Nat → Nat := fun _ => 1

/-- A sample compiled pattern: handle id 7, not studied, finalizer armed. -/
def sampleRe : Regexp :=
  { ptr := some 7, extra := none, finalizer := true }

/-- The engine behaviour of the single-literal-byte pattern (such as `"X"`):
match at the first occurrence of the byte `c`, else no match. -/
def litExec (c : Nat) : ExecFn := fun s _ =>
  match s.findIdx? (fun b => b == c) with
  | some i => (1, [(i : Int), (i : Int) + 1])
  | none => (ERROR_NOMATCH, [])

/-- The engine behaviour of a zero-width-matching pattern (such as `"x*"` on
a subject with no `x`): an empty match at offset 0, every time. -/
def zwExec : ExecFn := fun _ _ => (1, [0, 0])

/-- An engine that never matches. -/
def noMatchExec : ExecFn := fun _ _ => (ERROR_NOMATCH, [])

/-- The engine behaviour of `"a(b)?"` on `"a"`: the whole pattern matches
`[0,1)`, the optional group is unset (offsets -1). -/
def unsetGroupExec : ExecFn := fun _ _ => (1, [0, 1, -1, -1])

/-- The engine behaviour of `"a"` on `"ab"`: a match on `[0,1)`, a proper
prefix of the subject. -/
def wholeExec : ExecFn := fun _ _ => (1, [0, 1])

/-- The matcher produced by `Regexp.Matcher groupsOfZero zwExec sampleRe
[98] 0`: a successful zero-width match at offset 0 on subject `"b"`. -/
def zwMatcher : Matcher :=
  { re := some sampleRe, groups := 0, ovector := [0, 0, 0],
    matchesFlag := true, partialFlag := false, subjects := [],
    subjectb := some [98], err := none }

/-- A freshly bound matcher on `sampleRe` with no match attempted. -/
def matcher0 : Matcher :=
  { re := some sampleRe, groups := 0, ovector := [0, 0, 0],
    matchesFlag := false, partialFlag := false, subjects := [],
    subjectb := none, err := none }

/-- An engine none of whose successful matches is zero-width: whenever the
result code classifies as a match, the engine wrote a whole-match pair
whose end offset consumes at least one byte of the subject. -/
def ExecProgress (exec : ExecFn) : Prop :=
  ∀ s f, (matched (exec s f).1).1 = true →
    ∃ a b rest, (exec s f).2 = a :: b :: rest ∧ 1 ≤ b ∧ b ≤ (s.length : Int)

/-- The `ReplaceAll` loop invariant: the offset vector holds at least the
whole-match pair, and after a successful match its end offset is at least
1 (the match consumed a byte of the current subject). -/
def RAInv (st : RAState) : Prop :=
  2 ≤ st.m.ovector.length ∧
  (st.m.matchesFlag = true → ∀ b, goIndex st.m.ovector 1 = some b → 1 ≤ b)

/-- The matcher produced by `Matcher.Init groupsOfOne newMatcher sampleRe`:
one capture group, a six-slot zeroed offset vector. -/
def matcher1 : Matcher :=
  { re := some sampleRe, groups := 1, ovector := [0, 0, 0, 0, 0, 0],
    matchesFlag := false, partialFlag := false, subjects := [],
    subjectb := none, err := none }

/-- A matched state over subject `"abc"` whose group 0 is unset (offsets
-1,-1) and whose group 1 is an empty match at offset 2. -/
def matcherG : Matcher :=
  { matcher0 with
      ovector := [-1, -1, 2, 2, 0, 0]
      subjectb := some [97, 98, 99] }

/-- C5: for every raw engine result code, `matched` classifies a
non-negative code or the partial-match code as a match with no error, the
no-match code as no match and no error, the bad-option code as no match
with the invalid-option-flag error, and every other negative code as no
match with an error naming the code; and `Matcher.Match` records the
partial flag exactly when the raw code is the partial-match code. -/
theorem match_result_classification :
    (∀ rc : Int, rc ≥ 0 ∨ rc = ERROR_PARTIAL → matched rc = (true, none)) ∧
    matched ERROR_NOMATCH = (false, none) ∧
    matched ERROR_BADOPTION = (false, some "PCRE.Match: invalid option flag") ∧
    (∀ rc : Int, rc < 0 → rc ≠ ERROR_NOMATCH → rc ≠ ERROR_BADOPTION →
      rc ≠ ERROR_PARTIAL →
      matched rc =
        (false, some ("unexpected return code from pcre_exec: " ++ toString rc))) ∧
    (∀ (exec : ExecFn) (m : Matcher) (s : List Nat) (flags : Int)
        (m1 : Matcher) (b : Bool),
      m.err = none → Matcher.Match exec m s flags = some (m1, b) →
      (m1.partialFlag = true ↔ (exec s flags).1 = ERROR_PARTIAL)) := by
  refine ⟨?_, by decide, by decide, ?_, ?_⟩
  · intro rc h
    simp only [matched, if_pos h]
  · intro rc h1 h2 h3 h4
    have hneg : ¬(rc ≥ 0 ∨ rc = ERROR_PARTIAL) := by
      push_neg
      exact ⟨by omega, h4⟩
    simp [matched, hneg, h2, h3]
  · intro exec m s flags m1 b herr hm
    cases hre : m.re with
    | none => simp [Matcher.Match, Matcher.Exec, herr, hre] at hm
    | some r =>
      cases hp : r.ptr with
      | none => simp [Matcher.Match, Matcher.Exec, herr, hre, hp] at hm
      | some p =>
        simp only [Matcher.Match, Matcher.Exec, herr, hre, hp] at hm
        obtain ⟨hm1, hb⟩ := Prod.mk.injEq _ _ _ _ ▸ Option.some.inj hm
        subst hm1
        simp [beq_iff_eq]

/-- C5 witness: the classification at the concrete codes 3 and -7, and the
partial flag after a concrete non-partial match. -/
theorem match_result_classification_witness :
    matched 3 = (true, none) ∧
    matched (-7) = (false, some "unexpected return code from pcre_exec: -7") ∧
    (zwMatcher.partialFlag = true ↔ (zwExec [98] 0).1 = ERROR_PARTIAL) :=
  ⟨match_result_classification.1 3 (by decide),
   match_result_classification.2.2.2.1 (-7) (by decide) (by decide) (by decide)
     (by decide),
   match_result_classification.2.2.2.2 zwExec matcher0 [98] 0 zwMatcher true
     (by decide) (by decide)⟩

/-- C4: once an error is recorded on a matcher, `Match` and `MatchString`
return false and leave the matcher unchanged whatever the engine would do
(they never invoke it); `Init` clears the recorded error. -/
theorem sticky_error_short_circuits :
    (∀ (exec : ExecFn) (m : Matcher) (s : List Nat) (flags : Int) (e : String),
      m.err = some e →
      Matcher.Match exec m s flags = some (m, false) ∧
      Matcher.MatchString exec m s flags = some (m, false)) ∧
    (∀ (groupsOf : Nat → Nat) (m : Matcher) (re : Regexp) (m1 : Matcher),
      Matcher.Init groupsOf m re = some m1 → m1.err = none) := by
  constructor
  · intro exec m s flags e he
    exact ⟨by simp [Matcher.Match, he], by simp [Matcher.MatchString, he]⟩
  · intro groupsOf m re m1 h
    cases hp : re.ptr with
    | none => simp [Matcher.Init, hp] at h
    | some hh =>
      simp only [Matcher.Init, hp] at h
      split at h
      · cases Option.some.inj h
        rfl
      · cases Option.some.inj h
        rfl

/-- C4 witness: a matcher with a recorded error short-circuits a concrete
match, and a concrete `Init` clears the error. -/
theorem sticky_error_short_circuits_witness :
    Matcher.Match zwExec { matcher0 with err := some "boom" } [98] 0 =
      some ({ matcher0 with err := some "boom" }, false) ∧
    matcher0.err = none :=
  ⟨(sticky_error_short_circuits.1 zwExec { matcher0 with err := some "boom" }
      [98] 0 "boom" rfl).1,
   sticky_error_short_circuits.2 groupsOfZero newMatcher sampleRe matcher0
     (by decide)⟩

/-- C3 counterexample: `Init` does not reset the partial flag — a matcher
whose last match was partial still reports a partial match after being
rebound (here on the fast path, but the slow path keeps it as well). -/
theorem init_does_not_reset_partial_cex :
    (Matcher.Init groupsOfZero { matcher0 with partialFlag := true }
        sampleRe).map Matcher.partialFlag = some true := by decide

/-- C3 amended: `Init` (on both the fast path and the slow path) resets the
success flag and the recorded error, and leaves the partial flag exactly as
it was. -/
theorem init_resets_success_and_error :
    ∀ (groupsOf : Nat → Nat) (m : Matcher) (re : Regexp) (m1 : Matcher),
      Matcher.Init groupsOf m re = some m1 →
      m1.matchesFlag = false ∧ m1.err = none ∧ m1.partialFlag = m.partialFlag := by
  intro groupsOf m re m1 h
  cases hp : re.ptr with
  | none => simp [Matcher.Init, hp] at h
  | some hh =>
    simp only [Matcher.Init, hp] at h
    split at h
    · cases Option.some.inj h
      exact ⟨rfl, rfl, rfl⟩
    · cases Option.some.inj h
      exact ⟨rfl, rfl, rfl⟩

/-- C3 amended witness: a concrete `Init` resets success and error and
keeps the former partial flag. -/
theorem init_resets_success_and_error_witness :
    matcher0.matchesFlag = false ∧ matcher0.err = none ∧
      matcher0.partialFlag = newMatcher.partialFlag :=
  init_resets_success_and_error groupsOfZero newMatcher sampleRe matcher0
    (by decide)

/-- C8: `Study` fails with the explicit already-optimized error when an
artifact is present, leaving the Regexp (and so the artifact) intact; it
fails with the engine's message when the engine reports one; and when the
engine returns neither artifact nor message it succeeds. -/
theorem study_one_shot_classification :
    ∀ (studyFn : Option Nat → Int → Option Nat × Option String)
      (re : Regexp) (flags : Int),
      (∀ e, re.extra = some e →
        Regexp.Study studyFn re flags =
          (re, some "Study: Regexp has already been optimized")) ∧
      (∀ art msg, re.extra = none →
        studyFn re.ptr (studyFlags flags) = (art, some msg) →
        Regexp.Study studyFn re flags = ({ re with extra := art }, some msg)) ∧
      (re.extra = none → studyFn re.ptr (studyFlags flags) = (none, none) →
        Regexp.Study studyFn re flags = (re, none)) := by
  intro studyFn re flags
  refine ⟨?_, ?_, ?_⟩
  · intro e he
    simp [Regexp.Study, he]
  · intro art msg he hs
    simp [Regexp.Study, he, hs]
  · intro he hs
    rcases re with ⟨p, x, f⟩
    simp only at he
    subst he
    simp [Regexp.Study, hs]

/-- C8 witness: the three outcomes at concrete engines — an already-studied
Regexp, an engine-reported message, and an artifact-less success. -/
theorem study_one_shot_classification_witness :
    Regexp.Study (fun _ _ => (none, none)) { sampleRe with extra := some 3 } 0 =
      ({ sampleRe with extra := some 3 },
        some "Study: Regexp has already been optimized") ∧
    Regexp.Study (fun _ _ => (none, some "study failed")) sampleRe 0 =
      ({ sampleRe with extra := none }, some "study failed") ∧
    Regexp.Study (fun _ _ => (none, none)) sampleRe 0 = (sampleRe, none) :=
  ⟨(study_one_shot_classification (fun _ _ => (none, none))
      { sampleRe with extra := some 3 } 0).1 3 rfl,
   (study_one_shot_classification (fun _ _ => (none, some "study failed"))
      sampleRe 0).2.1 none "study failed" rfl rfl,
   (study_one_shot_classification (fun _ _ => (none, none))
      sampleRe 0).2.2 rfl rfl⟩

/-- C9: `FreeRegexp` nils both handles and disarms the finalizer; a second
call frees nothing and changes nothing; when both handles are present it
frees exactly those two; and on a never-compiled Regexp it frees nothing. -/
theorem free_regexp_idempotent :
    ∀ re : Regexp,
      (re.FreeRegexp.1.ptr = none ∧ re.FreeRegexp.1.extra = none ∧
        re.FreeRegexp.1.finalizer = false) ∧
      re.FreeRegexp.1.FreeRegexp = (re.FreeRegexp.1, []) ∧
      (∀ h e, re.ptr = some h → re.extra = some e →
        re.FreeRegexp.2 = [CCall.freePtr h, CCall.freeStudy e]) ∧
      (re.ptr = none → re.extra = none → re.FreeRegexp.2 = []) := by
  intro re
  rcases re with ⟨p, x, f⟩
  cases p <;> cases x <;>
    simp [Regexp.FreeRegexp]

/-- C9 witness: freeing a studied Regexp frees exactly its two handles. -/
theorem free_regexp_idempotent_witness :
    (Regexp.FreeRegexp
        { ptr := some 7, extra := some 3, finalizer := true }).2 =
      [CCall.freePtr 7, CCall.freeStudy 3] :=
  (free_regexp_idempotent
    { ptr := some 7, extra := some 3, finalizer := true }).2.2.1 7 3 rfl rfl

/-- C7: after `Init`, on the slow path the group count is re-derived from
the bound handle, the offset vector is at least `3*(1+groups)` long, is
never shrunk, and is left untouched when already large enough; on the fast
path nothing is resized, so the bound holds whenever it already held. -/
theorem init_ovector_lower_bound :
    ∀ (groupsOf : Nat → Nat) (m : Matcher) (re : Regexp) (h : Nat)
      (m1 : Matcher),
      re.ptr = some h → Matcher.Init groupsOf m re = some m1 →
      ((m.sameHandle re = true →
          m1.groups = m.groups ∧ m1.ovector = m.ovector ∧
          (3 * (1 + m.groups) ≤ m.ovector.length →
            3 * (1 + m1.groups) ≤ m1.ovector.length)) ∧
       (m.sameHandle re = false →
          m1.groups = groupsOf h ∧
          3 * (1 + m1.groups) ≤ m1.ovector.length ∧
          m.ovector.length ≤ m1.ovector.length ∧
          (3 * (1 + groupsOf h) ≤ m.ovector.length → m1.ovector = m.ovector))) := by
  intro groupsOf m re h m1 hp hinit
  have hsame : Matcher.sameHandle { m with matchesFlag := false, err := none } re =
      Matcher.sameHandle m re := rfl
  simp only [Matcher.Init, hp, hsame] at hinit
  constructor
  · intro hfast
    rw [if_pos hfast] at hinit
    cases Option.some.inj hinit
    exact ⟨rfl, rfl, fun hb => hb⟩
  · intro hslow
    rw [hslow] at hinit
    simp only [Bool.false_eq_true, if_false] at hinit
    by_cases hlen : ({ m with matchesFlag := false, err := none } : Matcher).ovector.length <
        3 * (1 + groupsOf h)
    · rw [if_pos hlen] at hinit
      cases Option.some.inj hinit
      refine ⟨rfl, ?_, ?_, ?_⟩
      · simp
      · simp only [List.length_replicate]
        have : m.ovector.length < 3 * (1 + groupsOf h) := hlen
        omega
      · intro hge
        exact absurd hlen (by simp only [not_lt]; exact hge)
    · rw [if_neg hlen] at hinit
      cases Option.some.inj hinit
      refine ⟨rfl, ?_, le_refl _, fun _ => rfl⟩
      simp only [not_lt] at hlen
      exact hlen

/-- C7 witness: binding a fresh matcher to a one-group pattern yields a
six-slot vector meeting the bound. -/
theorem init_ovector_lower_bound_witness :
    matcher1.groups = groupsOfOne 7 ∧
    3 * (1 + matcher1.groups) ≤ matcher1.ovector.length ∧
    newMatcher.ovector.length ≤ matcher1.ovector.length ∧
    (3 * (1 + groupsOfOne 7) ≤ newMatcher.ovector.length →
      matcher1.ovector = newMatcher.ovector) :=
  (init_ovector_lower_bound groupsOfOne newMatcher sampleRe 7 matcher1 rfl
    (by decide)).2 (by decide)

/-- C10: after a match, `GroupString` returns the empty string both for an
absent group (negative start offset) and for a present group that matched
the empty string, while `Group` returns the nil slice exactly for the
absent group — a present group, even empty, is never nil. -/
theorem group_accessors_absent_vs_empty :
    ∀ (m : Matcher) (g : Nat) (a b : Int),
      goIndex m.ovector (2 * g) = some a →
      goIndex m.ovector (2 * g + 1) = some b →
      ((a < 0 →
          Matcher.GroupString m g = some [] ∧ Matcher.Group m g = some none) ∧
       (0 ≤ a → b = a → a ≤ (m.subjectData.length : Int) →
          Matcher.GroupString m g = some [] ∧
          Matcher.Group m g = some (some [])) ∧
       (0 ≤ a → ∀ r, Matcher.Group m g = some r → r ≠ none)) := by
  intro m g a b ha hb
  refine ⟨?_, ?_, ?_⟩
  · intro hneg
    have hna : ¬(0 ≤ a) := by omega
    cases hsb : m.subjectb <;>
      simp [Matcher.GroupString, Matcher.Group, ha, hb, hsb, hna]
  · intro h0 hba hlen
    subst hba
    cases hsb : m.subjectb with
    | none =>
      have hlen1 : b ≤ (m.subjects.length : Int) := by
        simpa [Matcher.subjectData, hsb] using hlen
      simp [Matcher.GroupString, Matcher.Group, ha, hb, hsb, h0, goSlice, hlen1]
    | some sb =>
      have hlen1 : b ≤ (sb.length : Int) := by
        simpa [Matcher.subjectData, hsb] using hlen
      simp [Matcher.GroupString, Matcher.Group, ha, hb, hsb, h0, goSlice, hlen1]
  · intro h0 r hr
    cases hsb : m.subjectb with
    | none =>
      simp only [Matcher.Group, ha, hb, hsb, Option.bind_eq_bind,
        Option.some_bind, if_pos h0] at hr
      obtain ⟨s1, hs1, rfl⟩ := Option.map_eq_some'.mp hr
      simp
    | some sb =>
      simp only [Matcher.Group, ha, hb, hsb, Option.bind_eq_bind,
        Option.some_bind, if_pos h0] at hr
      obtain ⟨s1, hs1, rfl⟩ := Option.map_eq_some'.mp hr
      simp

/-- C10 witness: on a concrete matcher over subject `"abc"`, group 0 (slots
-1,-1) is absent — empty string, nil slice — and group 1 (slots 2,2) is an
empty present match — empty string, non-nil empty slice. -/
theorem group_accessors_absent_vs_empty_witness :
    (Matcher.GroupString matcherG 0 = some [] ∧
      Matcher.Group matcherG 0 = some none) ∧
    (Matcher.GroupString matcherG 1 = some [] ∧
      Matcher.Group matcherG 1 = some (some [])) :=
  ⟨(group_accessors_absent_vs_empty matcherG 0 (-1) (-1) rfl rfl).1 (by decide),
   (group_accessors_absent_vs_empty matcherG 1 2 2 rfl rfl).2.1 (by decide) rfl
     (by decide)⟩

/-- C1 (code bug, evaluated at the failing inputs): after the engine
behaviour of `"a(b)?"` on `"a"` (group 1 unset, offsets -1), `Extract`
panics slicing with the negative offsets instead of reporting the group as
absent; after the engine behaviour of `"a"` on `"ab"` (whole match
`[0,1)`), `Extract` stores the whole subject `"ab"` at index 0, not the
whole-pattern slice; without a successful match it does return absent. -/
theorem extract_unset_group_panics :
    (Regexp.Matcher groupsOfOne unsetGroupExec sampleRe [97] 0).isSome = true ∧
    (Regexp.Matcher groupsOfOne unsetGroupExec sampleRe [97] 0).bind
        Matcher.Extract = none ∧
    (Regexp.Matcher groupsOfZero wholeExec sampleRe [97, 98] 0).bind
        Matcher.Extract = some (some [some [97, 98]]) ∧
    (Regexp.Matcher groupsOfZero wholeExec sampleRe [97, 98] 0).map
        (fun m => (goIndex m.ovector 0, goIndex m.ovector 1)) =
      some (some 0, some 1) ∧
    Matcher.Extract matcher0 = some none := by decide

/-- `writeInto` never changes the destination's length (the engine writes
in place into the caller's vector). -/
theorem writeInto_length (dst src : List Int) :
    (writeInto dst src).length = dst.length := by
  simp only [writeInto, List.length_append, List.length_take,
    List.length_drop]
  omega

/-- Reading slot 1 after the engine wrote at least two values. -/
theorem goIndex_writeInto_one (dst : List Int) (a b : Int) (t : List Int)
    (h : 2 ≤ dst.length) : goIndex (writeInto dst (a :: b :: t)) 1 = some b := by
  obtain ⟨k, hk⟩ : ∃ k, dst.length = k + 2 := ⟨dst.length - 2, by omega⟩
  show (writeInto dst (a :: b :: t)).get? 1 = some b
  unfold writeInto
  rw [hk]
  rfl

/-- A successful `Match` against a progressing engine leaves the offset
vector at least two slots long with a whole-match end offset of at least
1. -/
theorem match_progress_inv (exec : ExecFn) (hp : ExecProgress exec)
    (m m1 : Matcher) (s : List Nat) (flags : Int) (b : Bool)
    (hov : 2 ≤ m.ovector.length) (herr : m.err = none)
    (hm : Matcher.Match exec m s flags = some (m1, b)) :
    2 ≤ m1.ovector.length ∧
    (m1.matchesFlag = true → ∀ b1, goIndex m1.ovector 1 = some b1 → 1 ≤ b1) := by
  cases hre : m.re with
  | none => simp [Matcher.Match, Matcher.Exec, herr, hre] at hm
  | some r =>
    cases hpp : r.ptr with
    | none => simp [Matcher.Match, Matcher.Exec, herr, hre, hpp] at hm
    | some p =>
      simp only [Matcher.Match, Matcher.Exec, herr, hre, hpp] at hm
      obtain ⟨hm1, hb⟩ := Prod.mk.injEq _ _ _ _ ▸ Option.some.inj hm
      subst hm1
      constructor
      · show 2 ≤ (writeInto m.ovector (exec s flags).2).length
        rw [writeInto_length]
        exact hov
      · intro hmt b1 hb1
        obtain ⟨a, bb, rest, hw, hbb, _⟩ := hp s flags hmt
        rw [show (Matcher.ovector
            { m with
                subjects := []
                subjectb := some s
                ovector := writeInto m.ovector (exec s flags).2
                matchesFlag := (matched (exec s flags).1).1
                err := (matched (exec s flags).1).2
                partialFlag := (exec s flags).1 == ERROR_PARTIAL }) =
          writeInto m.ovector (exec s flags).2 from rfl] at hb1
        rw [hw, goIndex_writeInto_one _ _ _ _ hov] at hb1
        cases Option.some.inj hb1
        exact hbb

/-- Against a progressing engine, a `ReplaceAll` iteration that continues
preserves the loop invariant and strictly shrinks the remaining subject. -/
theorem replaceAllStep_next_inv (exec : ExecFn) (hp : ExecProgress exec)
    (repl : List Nat) (flags : Int) (st st1 : RAState) (hinv : RAInv st)
    (h : replaceAllStep exec repl flags st = RAStep.next st1) :
    RAInv st1 ∧ st1.bytes.length < st.bytes.length := by
  obtain ⟨hov2, hbnd⟩ := hinv
  unfold replaceAllStep at h
  by_cases hm : st.m.matchesFlag = true
  case neg =>
    rw [if_neg hm] at h
    exact absurd h (by simp)
  case pos =>
  rw [if_pos hm] at h
  cases h0 : goIndex st.m.ovector 0 with
  | none => simp [h0] at h
  | some ov0 =>
  cases h1 : goIndex st.m.ovector 1 with
  | none => simp [h0, h1] at h
  | some ov1 =>
  simp only [h0, h1] at h
  cases hpre : goSlice st.bytes 0 ov0 with
  | none => simp [hpre] at h
  | some pre =>
  cases hrest : goSlice st.bytes ov1 (st.bytes.length : Int) with
  | none => simp [hpre, hrest] at h
  | some rest =>
  simp only [hpre, hrest] at h
  cases hmm : Matcher.Match exec st.m rest flags with
  | none => simp [hmm] at h
  | some pr =>
  obtain ⟨m1, bb⟩ := pr
  simp only [hmm] at h
  cases h
  have hb1 : 1 ≤ ov1 := hbnd hm ov1 h1
  have hshrink : rest.length < st.bytes.length := by
    simp only [goSlice] at hrest
    split at hrest
    case isFalse => exact absurd hrest (by simp)
    case isTrue hc =>
      obtain ⟨hc1, hc2, hc3⟩ := hc
      cases Option.some.inj hrest
      simp only [List.length_take, List.length_drop]
      omega
  refine ⟨?_, hshrink⟩
  cases herr : st.m.err with
  | some e =>
    simp only [Matcher.Match, herr] at hmm
    obtain ⟨hm1, hbb⟩ := Prod.mk.injEq _ _ _ _ ▸ Option.some.inj hmm
    subst hm1
    exact ⟨hov2, fun _ b hb => hbnd hm b hb⟩
  | none =>
    exact match_progress_inv exec hp st.m m1 rest flags bb hov2 herr hmm

/-- Against a progressing engine, fuel beyond the remaining subject length
never runs out in the `ReplaceAll` loop. -/
theorem replaceAllLoop_no_fuel_free (exec : ExecFn) (hp : ExecProgress exec)
    (repl : List Nat) (flags : Int) :
    ∀ (fuel : Nat) (st : RAState), RAInv st → st.bytes.length < fuel →
      replaceAllLoop exec repl flags fuel st ≠ RunRes.noFuel := by
  intro fuel
  induction fuel with
  | zero => intro st _ hlt; exact absurd hlt (Nat.not_lt_zero _)
  | succ n ih =>
    intro st hinv hlt
    cases hstep : replaceAllStep exec repl flags st with
    | done r e => simp [replaceAllLoop, hstep]
    | panicked => simp [replaceAllLoop, hstep]
    | next st1 =>
      obtain ⟨hinv1, hsh⟩ :=
        replaceAllStep_next_inv exec hp repl flags st st1 hinv hstep
      rw [show replaceAllLoop exec repl flags (n + 1) st =
          replaceAllLoop exec repl flags n st1 from by
        simp [replaceAllLoop, hstep]]
      exact ih st1 hinv1 (by omega)

/-- A fresh matcher bound by `NewMatcher` has a zero-initialized offset
vector of length `3*(1+groups)` (so at least 3) and no recorded error. -/
theorem newMatcher_init_bounds (groupsOf : Nat → Nat) (re : Regexp)
    (m0 : Matcher) (h : Regexp.NewMatcher groupsOf re = some m0) :
    2 ≤ m0.ovector.length ∧ m0.err = none := by
  unfold Regexp.NewMatcher Matcher.Init at h
  cases hptr : re.ptr with
  | none => simp [hptr] at h
  | some hh =>
    have hpos : 0 < 3 * (1 + groupsOf hh) := by omega
    simp only [hptr, Matcher.sameHandle, newMatcher, List.length_nil, hpos,
      Bool.false_eq_true, if_false, if_true, reduceCtorEq] at h
    cases Option.some.inj h
    refine ⟨?_, rfl⟩
    show 2 ≤ (List.replicate (3 * (1 + groupsOf hh)) (0 : Int)).length
    simp only [List.length_replicate]
    omega

/-- The never-matching engine trivially progresses. -/
theorem noMatchExec_progress : ExecProgress noMatchExec := by
  intro s f h
  rw [show (matched (noMatchExec s f).1).1 = false from rfl] at h
  exact Bool.noConfusion h

/-- C2 counterexample: with the engine behaviour of a zero-width-matching
pattern (an empty match at offset 0 on subject `"b"`), one loop iteration
of `ReplaceAll` reproduces the same matcher and the same un-consumed
subject — the loop makes no progress — and the whole call exhausts any
concrete fuel (here 100 iterations) instead of terminating. -/
theorem replaceall_zero_width_cex :
    Regexp.Matcher groupsOfZero zwExec sampleRe [98] 0 = some zwMatcher ∧
    replaceAllStep zwExec [45] 0 ⟨zwMatcher, [98], []⟩ =
      RAStep.next ⟨zwMatcher, [98], [45]⟩ ∧
    Regexp.ReplaceAll groupsOfZero zwExec sampleRe [98] [45] 0 100 =
      RunRes.noFuel := by decide

/-- C2 amended: `ReplaceAll` terminates whenever every successful match
consumes at least one byte (fuel one past the subject length never runs
out); with a zero-width match the loop re-matches the unchanged subject
forever (every fuel is exhausted); and on subject `"aXbXc"` with the
single-byte pattern `"X"` and replacement `"-"` it returns `"a-b-c"`. -/
theorem replaceall_progress_and_scenario :
    (∀ (groupsOf : Nat → Nat) (exec : ExecFn) (re : Regexp)
        (bytes repl : List Nat) (flags : Int),
      ExecProgress exec →
      Regexp.ReplaceAll groupsOf exec re bytes repl flags (bytes.length + 1) ≠
        RunRes.noFuel) ∧
    (∀ (r : List Nat) (fuel : Nat),
      replaceAllLoop zwExec [45] 0 fuel ⟨zwMatcher, [98], r⟩ =
        RunRes.noFuel) ∧
    Regexp.ReplaceAll groupsOfZero (litExec 88) sampleRe [97, 88, 98, 88, 99]
        [45] 0 6 = RunRes.ok ([97, 45, 98, 45, 99], none) := by
  refine ⟨?_, ?_, by decide⟩
  · intro groupsOf exec re bytes repl flags hp
    unfold Regexp.ReplaceAll Regexp.Matcher
    cases hnm : Regexp.NewMatcher groupsOf re with
    | none => simp
    | some m0 =>
      obtain ⟨hov, herr⟩ := newMatcher_init_bounds groupsOf re m0 hnm
      simp only []
      cases hfm : Matcher.Match exec m0 bytes flags with
      | none => simp
      | some pr =>
        obtain ⟨mm, b⟩ := pr
        simp only []
        have hinv : RAInv ⟨mm, bytes, []⟩ :=
          match_progress_inv exec hp m0 mm bytes flags b hov herr hfm
        exact replaceAllLoop_no_fuel_free exec hp repl flags
          (bytes.length + 1) ⟨mm, bytes, []⟩ hinv (Nat.lt_succ_self _)
  · have hstep : ∀ r : List Nat,
        replaceAllStep zwExec [45] 0 ⟨zwMatcher, [98], r⟩ =
          RAStep.next ⟨zwMatcher, [98], (r ++ []) ++ [45]⟩ := fun _ => rfl
    intro r fuel
    induction fuel generalizing r with
    | zero => rfl
    | succ n ih =>
      rw [show replaceAllLoop zwExec [45] 0 (n + 1) ⟨zwMatcher, [98], r⟩ =
          replaceAllLoop zwExec [45] 0 n
            ⟨zwMatcher, [98], (r ++ []) ++ [45]⟩ from by
        simp only [replaceAllLoop, hstep r]]
      exact ih ((r ++ []) ++ [45])

/-- C2 amended witness: the progress-termination conjunct at the concrete
never-matching engine on subject `"a"`. -/
theorem replaceall_progress_and_scenario_witness :
    Regexp.ReplaceAll groupsOfZero noMatchExec sampleRe [97] [45] 0 2 ≠
      RunRes.noFuel :=
  replaceall_progress_and_scenario.1 groupsOfZero noMatchExec sampleRe [97]
    [45] 0 noMatchExec_progress

/-- A `FindAll` iteration that continues advances the offset by at least 1
and only while the new offset is still inside the subject. -/
theorem findAllStep_next_bounds (exec : ExecFn) (subject : List Nat)
    (flags : Int) (st st1 : FAState)
    (h : findAllStep exec subject flags st = FAStep.next st1) :
    st.offset + 1 ≤ st1.offset ∧ st1.offset < (subject.length : Int) := by
  unfold findAllStep at h
  by_cases hm : st.m.matchesFlag = true
  case neg =>
    rw [if_neg hm] at h
    exact absurd h (by simp)
  case pos =>
  rw [if_pos hm] at h
  cases h0 : goIndex st.m.ovector 0 with
  | none => simp [h0] at h
  | some ov0 =>
  cases h1 : goIndex st.m.ovector 1 with
  | none => simp [h0, h1] at h
  | some ov1 =>
  simp only [h0, h1] at h
  cases hsl : goSlice subject (ov0 + st.offset) (ov1 + st.offset) with
  | none => simp [hsl] at h
  | some txt =>
  simp only [hsl] at h
  by_cases hc : st.offset + maxInt 1 ov1 < (subject.length : Int)
  case neg =>
    rw [if_neg hc] at h
    exact absurd h (by simp)
  case pos =>
  rw [if_pos hc] at h
  cases hs2 : goSlice subject (st.offset + maxInt 1 ov1) (subject.length : Int) with
  | none => simp [hs2] at h
  | some suffix =>
  simp only [hs2] at h
  cases hmm : Matcher.MatchString exec st.m suffix flags with
  | none => simp [hmm] at h
  | some pr =>
  obtain ⟨m1, b⟩ := pr
  simp only [hmm] at h
  cases h
  have hmax : 1 ≤ maxInt 1 ov1 := by
    unfold maxInt
    split
    · omega
    · omega
  refine ⟨?_, ?_⟩
  · show st.offset + 1 ≤ st.offset + maxInt 1 ov1
    omega
  · show st.offset + maxInt 1 ov1 < (subject.length : Int)
    exact hc

/-- Fuel beyond the un-scanned subject length never runs out in the
`FindAll` loop. -/
theorem findAllLoop_no_fuel_free (exec : ExecFn) (subject : List Nat)
    (flags : Int) :
    ∀ (fuel : Nat) (st : FAState),
      ((subject.length : Int) - st.offset).toNat < fuel →
      findAllLoop exec subject flags fuel st ≠ RunRes.noFuel := by
  intro fuel
  induction fuel with
  | zero => intro st hlt; exact absurd hlt (Nat.not_lt_zero _)
  | succ n ih =>
    intro st hlt
    cases hstep : findAllStep exec subject flags st with
    | done acc e => simp [findAllLoop, hstep]
    | panicked => simp [findAllLoop, hstep]
    | next st1 =>
      obtain ⟨hadv, hin⟩ :=
        findAllStep_next_bounds exec subject flags st st1 hstep
      rw [show findAllLoop exec subject flags (n + 1) st =
          findAllLoop exec subject flags n st1 from by
        simp [findAllLoop, hstep]]
      exact ih st1 (by omega)

/-- C6: `FindAll` always terminates within `subject.length + 1` loop
iterations (the built-in fuel never runs out); a continuing iteration
reports the match at the offset-translated indices and advances the offset
by `maxInt 1 ovector[1]` — one past a zero-width match — and the loop
stops either when the advanced offset reaches the subject length (emitting
the last match) or when the match attempt failed. -/
theorem findall_offsets_and_termination :
    (∀ (groupsOf : Nat → Nat) (exec : ExecFn) (re : Regexp)
        (subject : List Nat) (flags : Int),
      Regexp.FindAll groupsOf exec re subject flags ≠ RunRes.noFuel) ∧
    (∀ (exec : ExecFn) (subject : List Nat) (flags : Int) (st : FAState)
        (ov0 ov1 : Int) (txt : List Nat),
      st.m.matchesFlag = true →
      goIndex st.m.ovector 0 = some ov0 →
      goIndex st.m.ovector 1 = some ov1 →
      goSlice subject (ov0 + st.offset) (ov1 + st.offset) = some txt →
      ((∀ (suffix : List Nat) (m1 : Matcher) (b : Bool),
          st.offset + maxInt 1 ov1 < (subject.length : Int) →
          goSlice subject (st.offset + maxInt 1 ov1) (subject.length : Int) =
            some suffix →
          Matcher.MatchString exec st.m suffix flags = some (m1, b) →
          findAllStep exec subject flags st =
            FAStep.next
              ⟨m1, st.offset + maxInt 1 ov1,
                st.acc ++ [⟨txt, [ov0 + st.offset, ov1 + st.offset]⟩]⟩) ∧
        ((subject.length : Int) ≤ st.offset + maxInt 1 ov1 →
          findAllStep exec subject flags st =
            FAStep.done
              (st.acc ++ [⟨txt, [ov0 + st.offset, ov1 + st.offset]⟩])
              st.m.err))) ∧
    (∀ (exec : ExecFn) (subject : List Nat) (flags : Int) (st : FAState),
      st.m.matchesFlag = false →
      findAllStep exec subject flags st = FAStep.done st.acc st.m.err) := by
  refine ⟨?_, ?_, ?_⟩
  · intro groupsOf exec re subject flags
    unfold Regexp.FindAll
    cases hms : Regexp.MatcherString groupsOf exec re subject flags with
    | none => simp
    | some m =>
      simp only []
      refine findAllLoop_no_fuel_free exec subject flags (subject.length + 1)
        ⟨m, 0, []⟩ ?_
      show ((subject.length : Int) - 0).toNat < subject.length + 1
      omega
  · intro exec subject flags st ov0 ov1 txt hm h0 h1 hsl
    constructor
    · intro suffix m1 b hc hs2 hmm
      unfold findAllStep
      rw [if_pos hm]
      simp only [h0, h1, hsl, hs2, hmm]
      rw [if_pos hc]
    · intro hge
      unfold findAllStep
      rw [if_pos hm]
      simp only [h0, h1, hsl]
      rw [if_neg (not_lt.mpr hge)]
  · intro exec subject flags st hm
    unfold findAllStep
    rw [if_neg (by simp [hm])]

/-- C6 witness: the step equations at concrete states — a zero-width match
at offset 0 on the one-byte subject `"b"` stops the loop after recording
the empty match, and a non-matching state stops it at once — and the
termination conjunct at a concrete engine. -/
theorem findall_offsets_and_termination_witness :
    Regexp.FindAll groupsOfZero (litExec 88) sampleRe [97, 88, 98] 0 ≠
      RunRes.noFuel ∧
    findAllStep zwExec [98] 0 ⟨zwMatcher, 0, []⟩ =
      FAStep.done [⟨[], [0, 0]⟩] none ∧
    findAllStep noMatchExec [97] 0 ⟨matcher0, 0, []⟩ = FAStep.done [] none :=
  ⟨findall_offsets_and_termination.1 groupsOfZero (litExec 88) sampleRe
      [97, 88, 98] 0,
   (findall_offsets_and_termination.2.1 zwExec [98] 0 ⟨zwMatcher, 0, []⟩ 0 0
      [] rfl rfl rfl (by decide)).2 (by decide),
   findall_offsets_and_termination.2.2 noMatchExec [97] 0 ⟨matcher0, 0, []⟩
     rfl⟩

end GoPcre
